import Mathlib

/-!
Shallow embedding of the format-reconciliation core of
`src/backend/main.py` (the `parse_formats` function and its helpers
`_height_to_label`, `_label_from_format_id`, `_codec_priority`), together
with theorems settling the specification claims about it.

Modelling conventions:
* Python dict stream descriptors become the record `StreamDescriptor`.
  Numeric fields (`height`, `width`, `abr`, `tbr`, `vbr`, `filesize`,
  `filesize_approx`) are modelled as `Nat` with `0` standing for both the
  Python value `0` and an absent/`None` field: the source only ever reads
  them through falsy-coalescing (`x or y`, `if not h`, `(x or 0) > 0`),
  under which `None` and `0` are indistinguishable.
* The codec fields are `Option String` because the source distinguishes
  `f.get("vcodec") is None` (absent) from the string sentinel `"none"`
  in the muxed-progressive classification.
* Python float tolerance `abs(height - qh) / qh <= 0.12` is rendered as
  the exact rational comparison `100 * |height - qh| <= 12 * qh`; since no
  tier height is divisible by 25, equality with the cutoff is impossible
  for integer heights, so the float and rational comparisons agree.
-/

/-- One raw stream descriptor as reported by the extractor
(Python dict entry of `info["formats"]`). -/
structure StreamDescriptor where
  format_id : String
  vcodec : Option String
  acodec : Option String
  ext : Option String
  height : Nat
  width : Nat
  abr : Nat
  tbr : Nat
  vbr : Nat
  filesize : Nat
  filesize_approx : Nat
deriving DecidableEq, Repr

/-- One row of the user-facing quality menu (the dicts appended to
`formats` in `parse_formats`). -/
structure QualityOption where
  id : String
  ext : String
  quality : String
  filesize : Option Nat
deriving DecidableEq, Repr

/-- Python `x or y` on falsy-coalesced numeric fields
(`f.get("a") or f.get("b") or 0`). -/
def pyOr (x y : Nat) : Nat := if x = 0 then y else x

/-- Tier list `QUALITY_HEIGHTS` from the source (descending standard tiers). -/
def QUALITY_HEIGHTS : List Nat := [2160, 1440, 1080, 720, 480, 360, 240, 144]

/-- Dict `QUALITY_LABELS` from the source, as an association list. -/
def QUALITY_LABELS_LIST : List (Nat × String) :=
  [(2160, "4K"), (1440, "1440p"), (1080, "1080p"), (720, "720p"),
   (480, "480p"), (360, "360p"), (240, "240p"), (144, "144p")]

/-- Dict lookup `QUALITY_LABELS.get(h)`. -/
def QUALITY_LABELS (h : Nat) : Option String :=
  (QUALITY_LABELS_LIST.find? (fun p => p.1 == h)).map Prod.snd

/-- The tolerance test `abs(height - qh) / qh <= 0.12` of `_height_to_label`,
as an exact rational comparison (see the file header). -/
def withinTol (height qh : Nat) : Bool :=
  100 * (max height qh - min height qh) ≤ 12 * qh

/-- Helper `_height_to_label` from the source: exact tier, else nearest tier within
12% scanning `QUALITY_HEIGHTS` in order, else `f"{height}p"`; `0`/absent
maps to `"Unknown"`. -/
def height_to_label (height : Nat) : String :=
  if height = 0 then "Unknown"
  else
    match QUALITY_LABELS height with
    | some l => l
    | none =>
      match QUALITY_HEIGHTS.find? (fun qh => withinTol height qh) with
      | some qh => (QUALITY_LABELS qh).getD (toString qh ++ "p")
      | none => toString height ++ "p"

/-- Numeric value of a decimal digit character. -/
def digitVal (c : Char) : Nat := c.toNat - '0'.toNat

/-- One attempt of the regex `(\d{3,4})p` at the head of the character list:
greedily try four digits followed by `'p'`, then backtrack to three digits
followed by `'p'`. -/
def matchResAt : List Char → Option Nat
  | a :: b :: c :: rest =>
    if a.isDigit && b.isDigit && c.isDigit then
      match rest with
      | d :: rest2 =>
        if d.isDigit then
          match rest2 with
          | e :: _ =>
            if e = 'p' then
              some (digitVal a * 1000 + digitVal b * 100 + digitVal c * 10 + digitVal d)
            else none
          | [] => none
        else if d = 'p' then
          some (digitVal a * 100 + digitVal b * 10 + digitVal c)
        else none
      | [] => none
    else none
  | _ => none

/-- Model of `re.search(r"(\d{3,4})p", s)`: leftmost match wins. -/
def searchRes : List Char → Option Nat
  | [] => none
  | a :: rest =>
    match matchResAt (a :: rest) with
    | some v => some v
    | none => searchRes rest

/-- Helper `_label_from_format_id` from the source: extract a resolution token from
the identifier, map it through `QUALITY_LABELS.get(p, f"{p}p")`. -/
def label_from_format_id (format_id : String) : Option String :=
  (searchRes format_id.data).map
    (fun p =>
      match QUALITY_LABELS p with
      | some l => l
      | none => toString p ++ "p")

/-- Test whether `p` is a leading segment of the character list. -/
def startsWithChars : List Char → List Char → Bool
  | [], _ => true
  | _ :: _, [] => false
  | p :: ps, c :: cs => p == c && startsWithChars ps cs

/-- Python substring test `p in s` over character lists. -/
def hasSub (p : List Char) : List Char → Bool
  | [] => p.isEmpty
  | c :: rest => startsWithChars p (c :: rest) || hasSub p rest

/-- Python `pat in s` on strings. -/
def strIn (pat s : String) : Bool := hasSub pat.data s.data

/-- Python `s.lower()` restricted to ASCII, over the character list. -/
def lowerChars (l : List Char) : List Char := l.map Char.toLower

/-- Helper `_codec_priority` from the source: hardware-decodability ranking of the
video codec string (`(fmt.get("vcodec") or "").lower()`). -/
def codec_priority (f : StreamDescriptor) : Nat :=
  let vc := lowerChars (f.vcodec.getD "").data
  if hasSub "h264".data vc || hasSub "avc".data vc then 3
  else if hasSub "vp9".data vc || hasSub "vp8".data vc then 2
  else if hasSub "av01".data vc || hasSub "av1".data vc then 1
  else 0

/-- Python truthiness of the membership test
`f.get("vcodec") not in ("none", None)`: the codec field is present and not
the `"none"` sentinel. -/
def truthyCodec (c : Option String) : Bool :=
  match c with
  | none => false
  | some s => s != "none"

/-- The `video_only` comprehension predicate of `parse_formats`:
has vcodec, no audio, has height. -/
def isVideoOnly (f : StreamDescriptor) : Bool :=
  truthyCodec f.vcodec && !truthyCodec f.acodec && f.height != 0

/-- The `audio_only` comprehension predicate of `parse_formats`:
no video, no height, has audio codec or positive `abr`. -/
def isAudioOnly (f : StreamDescriptor) : Bool :=
  !truthyCodec f.vcodec && f.height == 0 && (truthyCodec f.acodec || f.abr > 0)

/-- The `combined_explicit` comprehension predicate of `parse_formats`:
both codecs set and has height. -/
def isCombinedExplicit (f : StreamDescriptor) : Bool :=
  truthyCodec f.vcodec && truthyCodec f.acodec && f.height != 0

/-- The `combined_muxed` comprehension predicate of `parse_formats`:
`vcodec is None and acodec is None` (fields literally absent) and has
height. -/
def isCombinedMuxed (f : StreamDescriptor) : Bool :=
  f.vcodec == none && f.acodec == none && f.height != 0

/-- The `video_only` partition of `parse_formats`. -/
def videoOnlyOf (raw : List StreamDescriptor) : List StreamDescriptor :=
  raw.filter isVideoOnly

/-- The `audio_only` partition of `parse_formats`. -/
def audioOnlyOf (raw : List StreamDescriptor) : List StreamDescriptor :=
  raw.filter isAudioOnly

/-- The `combined = combined_explicit + combined_muxed` partition of
`parse_formats`. -/
def combinedOf (raw : List StreamDescriptor) : List StreamDescriptor :=
  raw.filter isCombinedExplicit ++ raw.filter isCombinedMuxed

/-- Model of `max((f.get("height", 0) for f in l), default=0)`. -/
def maxHeight (l : List StreamDescriptor) : Nat :=
  l.foldl (fun m f => max m f.height) 0

/-- Dict lookup in an insertion-ordered association list
(`vid_by_height.get(h)` / `best_per_height.get(h)`). -/
def lookupH (m : List (Nat × StreamDescriptor)) (h : Nat) : Option StreamDescriptor :=
  (m.find? (fun p => p.1 == h)).map Prod.snd

/-- Dict update `m[h] = f` for a key already present: replace the binding in
place, keeping insertion order. -/
def setH (m : List (Nat × StreamDescriptor)) (h : Nat) (f : StreamDescriptor) :
    List (Nat × StreamDescriptor) :=
  m.map (fun p => if p.1 == h then (h, f) else p)

/-- One iteration of the grouping loops of `parse_formats`: skip zero
heights, first descriptor of a height wins unless `replace` prefers the
newcomer. -/
def groupStep (replace : StreamDescriptor → StreamDescriptor → Bool)
    (m : List (Nat × StreamDescriptor)) (f : StreamDescriptor) :
    List (Nat × StreamDescriptor) :=
  if f.height = 0 then m
  else
    match lookupH m f.height with
    | none => m ++ [(f.height, f)]
    | some prev => if replace f prev then setH m f.height f else m

/-- The shared shape of the two `for f in ...:` grouping loops of
`parse_formats` (`vid_by_height` and `best_per_height`). -/
def groupByHeight (replace : StreamDescriptor → StreamDescriptor → Bool)
    (l : List StreamDescriptor) : List (Nat × StreamDescriptor) :=
  l.foldl (groupStep replace) []

/-- The replacement rule of the `vid_by_height` loop: an mp4 newcomer beats a
non-mp4 holder; with equal mp4-ness, strictly higher
`tbr or vbr or 0` wins. -/
def vidReplace (f prev : StreamDescriptor) : Bool :=
  let f_mp4 := f.ext == some "mp4"
  let p_mp4 := prev.ext == some "mp4"
  (f_mp4 && !p_mp4) || (f_mp4 == p_mp4 && pyOr f.tbr f.vbr > pyOr prev.tbr prev.vbr)

/-- The replacement rule of the `best_per_height` loop: strictly higher codec
priority wins; with equal priority, strictly higher `tbr or vbr or 0` wins. -/
def combReplace (f prev : StreamDescriptor) : Bool :=
  codec_priority f > codec_priority prev ||
    (codec_priority f == codec_priority prev && pyOr f.tbr f.vbr > pyOr prev.tbr prev.vbr)

/-- Insert into a descending list (`sorted(keys, reverse=True)` helper). -/
def insertDesc (x : Nat) : List Nat → List Nat
  | [] => [x]
  | y :: ys => if x ≥ y then x :: y :: ys else y :: insertDesc x ys

/-- Model of `sorted(keys, reverse=True)`. -/
def sortDesc (l : List Nat) : List Nat := l.foldr insertDesc []

/-- Python `max(pool, key=key)`: first element with the maximal key. -/
def pyMaxBy (key : StreamDescriptor → Nat) :
    List StreamDescriptor → Option StreamDescriptor
  | [] => none
  | x :: xs => some (xs.foldl (fun b a => if key a > key b then a else b) x)

/-- Pool choice `m4a_streams if m4a_streams else audio_only` from the DASH path. -/
def audioPool (audio_only : List StreamDescriptor) : List StreamDescriptor :=
  let m4a_streams := audio_only.filter (fun a => a.ext == some "m4a")
  if m4a_streams.isEmpty then audio_only else m4a_streams

/-- Choice `best_audio = max(audio_pool, key=lambda a: a.get("abr") or a.get("tbr") or 0)`. -/
def bestAudio (audio_only : List StreamDescriptor) : Option StreamDescriptor :=
  pyMaxBy (fun a => pyOr a.abr a.tbr) (audioPool audio_only)

/-- The emission loop of the DASH path: for each height (descending) look up
the representative video stream, skip already-seen pair selectors, and emit
the merged option. -/
def emitDash (m : List (Nat × StreamDescriptor)) (aid : String) (asize : Nat) :
    List Nat → List String → List QualityOption
  | [], _ => []
  | h :: hs, seen =>
    match lookupH m h with
    | none => emitDash m aid asize hs seen
    | some best_vid =>
      let fmt_id := best_vid.format_id ++ "+" ++ aid
      if seen.contains fmt_id then emitDash m aid asize hs seen
      else
        let vid_size := pyOr best_vid.filesize best_vid.filesize_approx
        let total := vid_size + asize
        { id := fmt_id, ext := "mp4", quality := height_to_label h,
          filesize := if total > 0 then some total else none } ::
          emitDash m aid asize hs (fmt_id :: seen)

/-- The trailing audio-only option of the DASH path. -/
def dashAudioOpt (asize : Nat) : QualityOption :=
  { id := "bestaudio[ext=m4a]/bestaudio", ext := "mp3", quality := "Audio only",
    filesize := if asize > 0 then some asize else none }

/-- The DASH (`use_dash`) branch of `parse_formats`. The `none` case of
`bestAudio` is unreachable in context (`audio_only` is non-empty whenever
this branch runs). -/
def dashFormats (video_only audio_only : List StreamDescriptor) : List QualityOption :=
  match bestAudio audio_only with
  | none => []
  | some best_audio =>
    let audio_size := pyOr best_audio.filesize best_audio.filesize_approx
    let best_audio_id := best_audio.format_id
    let vid_by_height := groupByHeight vidReplace video_only
    emitDash vid_by_height best_audio_id audio_size
        (sortDesc (vid_by_height.map Prod.fst)) [] ++
      [dashAudioOpt audio_size]

/-- Python `s.endswith(pat)` over character lists (kernel-reducible
replacement for `String.endsWith`). -/
def strEndsWith (s pat : String) : Bool :=
  startsWithChars pat.data (s.data.drop (s.data.length - pat.data.length))

/-- Model of `re.search(r"-[01]$", format_id)`: the identifier ends in `-0` or `-1`. -/
def endsDupeSuffix (f : StreamDescriptor) : Bool :=
  strEndsWith f.format_id "-0" || strEndsWith f.format_id "-1"

/-- The TikTok duplicate filter of the combined path: if any identifier ends
in `-0`/`-1`, drop every descriptor whose identifier ends in `-1`. -/
def tiktokDedup (combined : List StreamDescriptor) : List StreamDescriptor :=
  if combined.any endsDupeSuffix then
    combined.filter (fun f => !strEndsWith f.format_id "-1")
  else combined

/-- The quality option emitted by the combined path for the representative
descriptor `best` of height group `h`. -/
def combinedOptAt (h : Nat) (best : StreamDescriptor) : QualityOption :=
  let width := best.width
  let is_portrait := decide (h > width) && decide (width > 0)
  let label :=
    match label_from_format_id best.format_id with
    | some l => l
    | none => height_to_label (if is_portrait then width else h)
  let size := pyOr best.filesize best.filesize_approx
  { id := best.format_id, ext := best.ext.getD "mp4", quality := label,
    filesize := if size > 0 then some size else none }

/-- The emission loop of the combined path: for each height (descending) emit
the option for the representative descriptor. -/
def emitCombined (m : List (Nat × StreamDescriptor)) : List Nat → List QualityOption
  | [] => []
  | h :: hs =>
    match lookupH m h with
    | none => emitCombined m hs
    | some best => combinedOptAt h best :: emitCombined m hs

/-- The trailing audio-only option of the combined path. -/
def combinedAudioOpt : QualityOption :=
  { id := "bestaudio/best", ext := "mp3", quality := "Audio only", filesize := none }

/-- The social/combined branch of `parse_formats`. -/
def combinedFormats (combined : List StreamDescriptor) : List QualityOption :=
  let combined2 := tiktokDedup combined
  let best_per_height := groupByHeight combReplace combined2
  emitCombined best_per_height (sortDesc (best_per_height.map Prod.fst)) ++
    [combinedAudioOpt]

/-- The `use_dash` test of `parse_formats`:
`video_only and audio_only and (not combined or max_vid_h > max_comb_h)`. -/
def useDashBool (raw : List StreamDescriptor) : Bool :=
  !(videoOnlyOf raw).isEmpty && !(audioOnlyOf raw).isEmpty &&
    ((combinedOf raw).isEmpty || maxHeight (videoOnlyOf raw) > maxHeight (combinedOf raw))

/-- The fallback option `{"id": "best", "ext": "mp4", "quality": "Best",
"filesize": None}`. -/
def fallbackBest : QualityOption :=
  { id := "best", ext := "mp4", quality := "Best", filesize := none }

/-- The `formats` list produced by the two paths of `parse_formats`, before
the final empty-result guard. -/
def pathFormats (raw : List StreamDescriptor) : List QualityOption :=
  if useDashBool raw then dashFormats (videoOnlyOf raw) (audioOnlyOf raw)
  else if !(combinedOf raw).isEmpty then combinedFormats (combinedOf raw)
  else []

/-- Function `parse_formats` from the source: fallback on empty input, partition,
choose the DASH or combined path, and guard against an empty result. -/
def parse_formats (raw_formats : List StreamDescriptor) : List QualityOption :=
  if raw_formats.isEmpty then [fallbackBest]
  else if (pathFormats raw_formats).isEmpty then [fallbackBest]
  else pathFormats raw_formats

/-- The identifier of the chosen best audio stream (empty when `audio_only`
is empty, which cannot happen on the DASH path). -/
def bestAudioId (audio_only : List StreamDescriptor) : String :=
  match bestAudio audio_only with
  | some ba => ba.format_id
  | none => ""

/-- The recorded size of the chosen best audio stream
(`best_audio.get("filesize") or best_audio.get("filesize_approx") or 0`). -/
def dashAudioSize (audio_only : List StreamDescriptor) : Nat :=
  match bestAudio audio_only with
  | some ba => pyOr ba.filesize ba.filesize_approx
  | none => 0

/-- The quality option the DASH path emits for the representative video
descriptor `f` of its own height group. -/
def mkDashOpt (f : StreamDescriptor) (aid : String) (asz : Nat) : QualityOption :=
  { id := f.format_id ++ "+" ++ aid, ext := "mp4",
    quality := height_to_label f.height,
    filesize :=
      if pyOr f.filesize f.filesize_approx + asz > 0
      then some (pyOr f.filesize f.filesize_approx + asz) else none }

/-- The Prop form of the `use_dash` path test, phrased as the claim states
it: both split partitions non-empty, and the combined partition empty or
out-resolved. -/
def useDashCond (raw : List StreamDescriptor) : Prop :=
  videoOnlyOf raw ≠ [] ∧ audioOnlyOf raw ≠ [] ∧
    (combinedOf raw = [] ∨ maxHeight (videoOnlyOf raw) > maxHeight (combinedOf raw))

instance (raw : List StreamDescriptor) : Decidable (useDashCond raw) := by
  unfold useDashCond
  infer_instance

/-- A descriptor failing all four classification predicates of the code:
it lands in no partition of `parse_formats`. -/
def codeIgnored (f : StreamDescriptor) : Bool :=
  !isVideoOnly f && !isAudioOnly f && !isCombinedExplicit f && !isCombinedMuxed f

/-- Modelled from the spec: "absence/`none` sentinel both mean no such
track" — presence of a codec track under the spec's data model (§3). -/
def specCodecPresent (c : Option String) : Bool :=
  match c with
  | none => false
  | some s => s != "none"

/-- Modelled from the spec: "A descriptor with a video codec, no audio
codec, and a positive height is video-only" (§3). -/
def specIsVideoOnly (f : StreamDescriptor) : Bool :=
  specCodecPresent f.vcodec && !specCodecPresent f.acodec && f.height != 0

/-- Modelled from the spec: "a descriptor with neither `video_codec` present
nor `height` present, and with an audio codec or positive audio bitrate, is
audio-only" (§3). -/
def specIsAudioOnly (f : StreamDescriptor) : Bool :=
  !specCodecPresent f.vcodec && f.height == 0 &&
    (specCodecPresent f.acodec || f.abr > 0)

/-- Modelled from the spec: "A descriptor with both codecs and a positive
height is combined" (§3). The code additionally treats both-codecs-absent
descriptors with height as (muxed) combined; the spec's data model does
not. -/
def specIsCombined (f : StreamDescriptor) : Bool :=
  specCodecPresent f.vcodec && specCodecPresent f.acodec && f.height != 0

/-- Modelled from the spec: the quality rank of a label, for the "ordered
from highest to lowest quality" reading — `"4K"` counts as 2160, an `"NNNp"`
label as its numeric prefix, anything else as 0. -/
def specLabelQuality (s : String) : Nat :=
  if s = "4K" then 2160
  else (s.data.takeWhile Char.isDigit).foldl (fun n c => n * 10 + digitVal c) 0

/-! ### Structural lemmas about the grouping maps -/

theorem mem_setH {m : List (Nat × StreamDescriptor)} {h : Nat}
    {f : StreamDescriptor} {p : Nat × StreamDescriptor}
    (hp : p ∈ setH m h f) : p ∈ m ∨ p = (h, f) := by
  unfold setH at hp
  obtain ⟨q, hq, hpe⟩ := List.mem_map.mp hp
  by_cases hqh : (q.1 == h) = true
  · rw [if_pos hqh] at hpe
    exact Or.inr hpe.symm
  · rw [if_neg hqh] at hpe
    exact Or.inl (hpe ▸ hq)

theorem mem_groupStep {r : StreamDescriptor → StreamDescriptor → Bool}
    {m : List (Nat × StreamDescriptor)} {f : StreamDescriptor}
    {p : Nat × StreamDescriptor} (hp : p ∈ groupStep r m f) :
    p ∈ m ∨ p = (f.height, f) := by
  unfold groupStep at hp
  split at hp
  · exact Or.inl hp
  · split at hp
    · rcases List.mem_append.mp hp with h1 | h1
      · exact Or.inl h1
      · right; simpa using h1
    · split at hp
      · exact mem_setH hp
      · exact Or.inl hp

theorem foldl_groupStep_mem (r : StreamDescriptor → StreamDescriptor → Bool) :
    ∀ (l : List StreamDescriptor) (acc : List (Nat × StreamDescriptor))
      (p : Nat × StreamDescriptor), p ∈ l.foldl (groupStep r) acc →
      p ∈ acc ∨ (p.2 ∈ l ∧ p.2.height = p.1) := by
  intro l
  induction l with
  | nil => intro acc p hp; exact Or.inl (by simpa using hp)
  | cons x xs ih =>
    intro acc p hp
    simp only [List.foldl_cons] at hp
    rcases ih (groupStep r acc x) p hp with h1 | h1
    · rcases mem_groupStep h1 with h2 | h2
      · exact Or.inl h2
      · right
        rw [h2]
        exact ⟨List.mem_cons_self x xs, rfl⟩
    · exact Or.inr ⟨List.mem_cons_of_mem _ h1.1, h1.2⟩

/-- Every entry of a grouping map comes from the input list and is keyed by
its own height. -/
theorem groupByHeight_mem {r : StreamDescriptor → StreamDescriptor → Bool}
    {l : List StreamDescriptor} {p : Nat × StreamDescriptor}
    (hp : p ∈ groupByHeight r l) : p.2 ∈ l ∧ p.2.height = p.1 := by
  rcases foldl_groupStep_mem r l [] p hp with h1 | h1
  · simp at h1
  · exact h1

theorem lookupH_eq_some {m : List (Nat × StreamDescriptor)} {h : Nat}
    {f : StreamDescriptor} (hl : lookupH m h = some f) : (h, f) ∈ m := by
  unfold lookupH at hl
  cases hfind : m.find? (fun p => p.1 == h) with
  | none => rw [hfind] at hl; simp at hl
  | some p =>
    rw [hfind] at hl
    have hp2 : p.2 = f := by simpa using hl
    have hmem := List.mem_of_find?_eq_some hfind
    have hkey : p.1 = h := by simpa using List.find?_some hfind
    have : p = (h, f) := by
      cases p
      simp_all
    exact this ▸ hmem

/-- Combination: a successful height lookup in a grouping map yields a
descriptor from the input list whose height is the key. -/
theorem lookupH_groupByHeight {r : StreamDescriptor → StreamDescriptor → Bool}
    {l : List StreamDescriptor} {h : Nat} {f : StreamDescriptor}
    (hl : lookupH (groupByHeight r l) h = some f) : f ∈ l ∧ f.height = h :=
  groupByHeight_mem (lookupH_eq_some hl)

/-! ### Nonemptiness of the two path results -/

theorem pyMaxBy_isSome (key : StreamDescriptor → Nat)
    {l : List StreamDescriptor} (h : l ≠ []) : ∃ x, pyMaxBy key l = some x := by
  cases l with
  | nil => exact absurd rfl h
  | cons x xs => exact ⟨_, rfl⟩

theorem audioPool_ne_nil {ao : List StreamDescriptor} (h : ao ≠ []) :
    audioPool ao ≠ [] := by
  intro hnil
  simp only [audioPool] at hnil
  split at hnil
  · exact h hnil
  · next hm => rw [hnil] at hm; simp at hm

theorem bestAudio_isSome {ao : List StreamDescriptor} (h : ao ≠ []) :
    ∃ ba, bestAudio ao = some ba :=
  pyMaxBy_isSome _ (audioPool_ne_nil h)

theorem dashFormats_ne_nil (vo : List StreamDescriptor)
    {ao : List StreamDescriptor} (h : ao ≠ []) : dashFormats vo ao ≠ [] := by
  obtain ⟨ba, hba⟩ := bestAudio_isSome h
  simp [dashFormats, hba]

theorem combinedFormats_ne_nil (c : List StreamDescriptor) :
    combinedFormats c ≠ [] := by
  simp [combinedFormats]

/-! ### Branch characterizations of `parse_formats` -/

theorem parse_formats_dash {raw : List StreamDescriptor}
    (hd : useDashBool raw = true) :
    parse_formats raw = dashFormats (videoOnlyOf raw) (audioOnlyOf raw) := by
  have hao : audioOnlyOf raw ≠ [] := by
    intro he
    simp [useDashBool, he] at hd
  have hraw : raw.isEmpty = false := by
    cases raw with
    | nil => simp [audioOnlyOf] at hao
    | cons x xs => rfl
  have hpf : pathFormats raw = dashFormats (videoOnlyOf raw) (audioOnlyOf raw) := by
    simp [pathFormats, hd]
  have hne : (pathFormats raw).isEmpty = false := by
    rw [hpf]
    simpa [List.isEmpty_iff] using dashFormats_ne_nil (videoOnlyOf raw) hao
  rw [parse_formats, hraw, if_neg (by simp), hne, if_neg (by simp), hpf]

theorem parse_formats_combined {raw : List StreamDescriptor}
    (hd : useDashBool raw = false) (hc : combinedOf raw ≠ []) :
    parse_formats raw = combinedFormats (combinedOf raw) := by
  have hraw : raw.isEmpty = false := by
    cases raw with
    | nil => simp [combinedOf] at hc
    | cons x xs => rfl
  have hpf : pathFormats raw = combinedFormats (combinedOf raw) := by
    simp [pathFormats, hd, List.isEmpty_iff, hc]
  have hne : (pathFormats raw).isEmpty = false := by
    rw [hpf]
    simpa [List.isEmpty_iff] using combinedFormats_ne_nil (combinedOf raw)
  rw [parse_formats, hraw, if_neg (by simp), hne, if_neg (by simp), hpf]

theorem parse_formats_no_path {raw : List StreamDescriptor}
    (hd : useDashBool raw = false) (hc : combinedOf raw = []) :
    parse_formats raw = [fallbackBest] := by
  have hpf : pathFormats raw = [] := by
    simp [pathFormats, hd, hc]
  rw [parse_formats]
  split
  · rfl
  · rw [hpf]
    simp

/-- The returned list is never empty, whatever the input. -/
theorem parse_formats_ne_nil (raw : List StreamDescriptor) :
    parse_formats raw ≠ [] := by
  rw [parse_formats]
  split
  · simp
  · split
    · simp
    · next hne => simpa [List.isEmpty_iff] using hne

theorem useDashBool_audio_ne_nil {raw : List StreamDescriptor}
    (hd : useDashBool raw = true) : audioOnlyOf raw ≠ [] := by
  intro he
  simp [useDashBool, he] at hd

/-! ### What the two emission loops produce -/

theorem emitDash_mem (m : List (Nat × StreamDescriptor)) (aid : String)
    (asz : Nat) (hs : List Nat) :
    ∀ (seen : List String) (opt : QualityOption),
      opt ∈ emitDash m aid asz hs seen →
      ∃ h f, lookupH m h = some f ∧
        opt = { id := f.format_id ++ "+" ++ aid, ext := "mp4",
                quality := height_to_label h,
                filesize :=
                  if pyOr f.filesize f.filesize_approx + asz > 0
                  then some (pyOr f.filesize f.filesize_approx + asz)
                  else none } := by
  induction hs with
  | nil => intro seen opt hp; simp [emitDash] at hp
  | cons h hs ih =>
    intro seen opt hp
    rw [emitDash] at hp
    cases hlk : lookupH m h with
    | none =>
      rw [hlk] at hp
      exact ih seen opt hp
    | some bv =>
      rw [hlk] at hp
      dsimp only at hp
      split at hp
      · exact ih _ opt hp
      · rcases List.mem_cons.mp hp with h1 | h1
        · exact ⟨h, bv, hlk, h1⟩
        · exact ih _ opt h1

/-- Every video entry of the DASH path comes from a `video_only` descriptor
grouped at its own height. -/
theorem dash_dropLast_mem {vo ao : List StreamDescriptor} {ba : StreamDescriptor}
    (hba : bestAudio ao = some ba) :
    ∀ opt ∈ (dashFormats vo ao).dropLast, ∃ f, f ∈ vo ∧
      opt = mkDashOpt f ba.format_id (pyOr ba.filesize ba.filesize_approx) := by
  intro opt hopt
  simp only [dashFormats, hba] at hopt
  have hdl :
      (emitDash (groupByHeight vidReplace vo) ba.format_id
            (pyOr ba.filesize ba.filesize_approx)
            (sortDesc ((groupByHeight vidReplace vo).map Prod.fst)) [] ++
          [dashAudioOpt (pyOr ba.filesize ba.filesize_approx)]).dropLast =
        emitDash (groupByHeight vidReplace vo) ba.format_id
          (pyOr ba.filesize ba.filesize_approx)
          (sortDesc ((groupByHeight vidReplace vo).map Prod.fst)) [] := by
    simp
  rw [hdl] at hopt
  obtain ⟨h, f, hlk, heq⟩ := emitDash_mem _ _ _ _ _ _ hopt
  obtain ⟨hmem, hh⟩ := lookupH_groupByHeight hlk
  refine ⟨f, hmem, ?_⟩
  rw [heq, mkDashOpt, hh]

theorem emitCombined_mem (m : List (Nat × StreamDescriptor)) (hs : List Nat) :
    ∀ opt ∈ emitCombined m hs,
      ∃ h f, lookupH m h = some f ∧ opt = combinedOptAt h f := by
  induction hs with
  | nil => intro opt hp; simp [emitCombined] at hp
  | cons h hs ih =>
    intro opt hp
    rw [emitCombined] at hp
    cases hlk : lookupH m h with
    | none =>
      rw [hlk] at hp
      exact ih opt hp
    | some best =>
      rw [hlk] at hp
      rcases List.mem_cons.mp hp with h1 | h1
      · exact ⟨h, best, hlk, h1⟩
      · exact ih opt h1

/-- Every video entry of the combined path comes from a deduplicated
combined descriptor grouped at its own height. -/
theorem combined_dropLast_mem {c : List StreamDescriptor} :
    ∀ opt ∈ (combinedFormats c).dropLast, ∃ f, f ∈ tiktokDedup c ∧
      opt = combinedOptAt f.height f := by
  intro opt hopt
  simp only [combinedFormats] at hopt
  have hdl :
      (emitCombined (groupByHeight combReplace (tiktokDedup c))
            (sortDesc ((groupByHeight combReplace (tiktokDedup c)).map Prod.fst)) ++
          [combinedAudioOpt]).dropLast =
        emitCombined (groupByHeight combReplace (tiktokDedup c))
          (sortDesc ((groupByHeight combReplace (tiktokDedup c)).map Prod.fst)) := by
    simp
  rw [hdl] at hopt
  obtain ⟨h, f, hlk, heq⟩ := emitCombined_mem _ _ opt hopt
  obtain ⟨hmem, hh⟩ := lookupH_groupByHeight hlk
  exact ⟨f, hmem, by rw [heq, hh]⟩

theorem tiktokDedup_subset (c : List StreamDescriptor) : tiktokDedup c ⊆ c := by
  unfold tiktokDedup
  split
  · exact List.filter_subset' c
  · exact fun a ha => ha

/-! ### No video label can read "Audio only" -/

theorem QUALITY_LABELS_values {h : Nat} {l : String}
    (he : QUALITY_LABELS h = some l) :
    l = "4K" ∨ l = "1440p" ∨ l = "1080p" ∨ l = "720p" ∨ l = "480p" ∨
      l = "360p" ∨ l = "240p" ∨ l = "144p" := by
  unfold QUALITY_LABELS at he
  cases hf : QUALITY_LABELS_LIST.find? (fun p => p.1 == h) with
  | none => rw [hf] at he; simp at he
  | some p =>
    rw [hf] at he
    have hp : p ∈ QUALITY_LABELS_LIST := List.mem_of_find?_eq_some hf
    obtain ⟨p1, p2⟩ := p
    have hl : p2 = l := by simpa using he
    rw [← hl]
    simp only [QUALITY_LABELS_LIST, List.mem_cons, Prod.mk.injEq,
      List.not_mem_nil, or_false] at hp
    rcases hp with ⟨h1, h2⟩ | ⟨h1, h2⟩ | ⟨h1, h2⟩ | ⟨h1, h2⟩ | ⟨h1, h2⟩ |
      ⟨h1, h2⟩ | ⟨h1, h2⟩ | ⟨h1, h2⟩ <;> rw [h2] <;> simp

theorem tostring_p_ne_audio (n : Nat) : toString n ++ "p" ≠ "Audio only" := by
  intro h
  have hd := congrArg String.data h
  rw [String.data_append] at hd
  have h1 : ((toString n).data ++ "p".data).getLast? = some 'p' := by
    have hp : "p".data = ['p'] := rfl
    rw [hp]
    simp
  rw [hd] at h1
  exact absurd h1 (by decide)

theorem height_to_label_ne_audio (h : Nat) : height_to_label h ≠ "Audio only" := by
  unfold height_to_label
  split
  · decide
  · cases hql : QUALITY_LABELS h with
    | some l =>
      simp only [hql]
      rcases QUALITY_LABELS_values hql with h1 | h1 | h1 | h1 | h1 | h1 | h1 | h1 <;>
        simp [h1]
    | none =>
      simp only [hql]
      cases hf : QUALITY_HEIGHTS.find? (fun qh => withinTol h qh) with
      | some qh =>
        simp only [hf]
        cases hq2 : QUALITY_LABELS qh with
        | some l2 =>
          simp only [hq2, Option.getD_some]
          rcases QUALITY_LABELS_values hq2 with h1 | h1 | h1 | h1 | h1 | h1 | h1 | h1 <;>
            simp [h1]
        | none =>
          simp only [hq2, Option.getD_none]
          exact tostring_p_ne_audio qh
      | none =>
        simp only [hf]
        exact tostring_p_ne_audio h

theorem label_from_ne_audio {s l : String}
    (he : label_from_format_id s = some l) : l ≠ "Audio only" := by
  unfold label_from_format_id at he
  cases hs : searchRes s.data with
  | none => rw [hs] at he; simp at he
  | some p =>
    rw [hs] at he
    have he2 :
        (match QUALITY_LABELS p with
          | some l2 => l2
          | none => toString p ++ "p") = l := by
      simpa using he
    cases hq : QUALITY_LABELS p with
    | some l2 =>
      rw [hq] at he2
      dsimp only at he2
      rw [← he2]
      rcases QUALITY_LABELS_values hq with h1 | h1 | h1 | h1 | h1 | h1 | h1 | h1 <;>
        rw [h1] <;> decide
    | none =>
      rw [hq] at he2
      dsimp only at he2
      rw [← he2]
      exact tostring_p_ne_audio p

theorem combinedOptAt_quality_ne_audio (h : Nat) (f : StreamDescriptor) :
    (combinedOptAt h f).quality ≠ "Audio only" := by
  unfold combinedOptAt
  dsimp only
  cases hlf : label_from_format_id f.format_id with
  | some l => exact label_from_ne_audio hlf
  | none => exact height_to_label_ne_audio _

theorem useDashBool_iff (raw : List StreamDescriptor) :
    useDashBool raw = true ↔ useDashCond raw := by
  unfold useDashBool useDashCond
  simp [List.isEmpty_iff, and_assoc]

/-! ### Claim C3 -/

/-- C3, as stated, is false on the code: `_height_to_label` maps 270 to
`"270p"` (30/240 = 12.5% exceeds the 12% tolerance, so no snap to 240)
and 999 to `"1080p"` (81/1080 = 7.5% is within the 12% tolerance), while
the claim asserts `"240p"` and `"999p"`. -/
theorem C3_counterexample :
    ¬ (height_to_label 1080 = "1080p" ∧ height_to_label 652 = "720p" ∧
       height_to_label 270 = "240p" ∧ height_to_label 999 = "999p" ∧
       height_to_label 0 = "Unknown") := by decide

/-- C3 (amended): the height-to-label function maps 1080 to `"1080p"`
(exact tier), 652 to `"720p"` (within the 12% relative tolerance), 270 to
`"270p"` (12.5% off 240 exceeds the tolerance, so no tier snaps), 999 to
`"1080p"` (1080 is within the tolerance, at 7.5%), and 0 to `"Unknown"`. -/
theorem C3_height_to_label_values :
    height_to_label 1080 = "1080p" ∧ height_to_label 652 = "720p" ∧
    height_to_label 270 = "270p" ∧ height_to_label 999 = "1080p" ∧
    height_to_label 0 = "Unknown" := by decide

/-! ### Claim C8 -/

/-- C8: the empty input yields exactly the fallback `"Best"` option; any
input whose chosen path derived no options yields exactly the fallback
option; and the returned list is never empty. -/
theorem C8_fallback :
    parse_formats [] = [fallbackBest] ∧
    (∀ l : List StreamDescriptor, pathFormats l = [] →
      parse_formats l = [fallbackBest]) ∧
    (∀ l : List StreamDescriptor, parse_formats l ≠ []) := by
  refine ⟨rfl, ?_, parse_formats_ne_nil⟩
  intro l hp
  rw [parse_formats]
  split
  · rfl
  · rw [hp]
    simp

/-- Witness for C8 at a concrete input: a lone descriptor with the `"none"`
codec sentinels and a height fails every classification, so no option is
derived and the fallback is returned. -/
theorem C8_fallback_witness :
    pathFormats [⟨"x", some "none", some "none", some "mp4", 360, 640, 0, 0, 0, 0, 0⟩] = [] ∧
    parse_formats [⟨"x", some "none", some "none", some "mp4", 360, 640, 0, 0, 0, 0, 0⟩] =
      [fallbackBest] :=
  ⟨by decide,
   C8_fallback.2.1 [⟨"x", some "none", some "none", some "mp4", 360, 640, 0, 0, 0, 0, 0⟩]
     (by decide)⟩

/-! ### Claim C2 -/

/-- C2: the Reconciler takes the DASH split-stream path exactly under the
claimed condition (both split partitions non-empty, and the combined
partition empty or strictly out-resolved by the video-only maximum height);
otherwise, when the combined partition is non-empty, it takes the combined
path. -/
theorem C2_path_selection (raw : List StreamDescriptor) :
    (useDashCond raw →
      parse_formats raw = dashFormats (videoOnlyOf raw) (audioOnlyOf raw)) ∧
    (¬ useDashCond raw → combinedOf raw ≠ [] →
      parse_formats raw = combinedFormats (combinedOf raw)) := by
  constructor
  · intro hcond
    exact parse_formats_dash ((useDashBool_iff raw).mpr hcond)
  · intro hcond hc
    have hd : useDashBool raw = false := by
      rcases hb : useDashBool raw with _ | _
      · rfl
      · exact absurd ((useDashBool_iff raw).mp hb) hcond
    exact parse_formats_combined hd hc

/-- Witness for C2 at the spec's own example shape: video-only reaching
2160p, audio-only present, combined reaching only 360p — the DASH path is
taken. -/
theorem C2_path_selection_witness :
    useDashCond
      [⟨"v1", some "vp9", none, some "mp4", 2160, 3840, 0, 0, 0, 0, 0⟩,
       ⟨"a1", none, some "opus", some "webm", 0, 0, 64, 0, 0, 0, 0⟩,
       ⟨"18", some "avc1", some "mp4a", some "mp4", 360, 640, 0, 0, 0, 0, 0⟩] ∧
    parse_formats
      [⟨"v1", some "vp9", none, some "mp4", 2160, 3840, 0, 0, 0, 0, 0⟩,
       ⟨"a1", none, some "opus", some "webm", 0, 0, 64, 0, 0, 0, 0⟩,
       ⟨"18", some "avc1", some "mp4a", some "mp4", 360, 640, 0, 0, 0, 0, 0⟩] =
      dashFormats
        (videoOnlyOf
          [⟨"v1", some "vp9", none, some "mp4", 2160, 3840, 0, 0, 0, 0, 0⟩,
           ⟨"a1", none, some "opus", some "webm", 0, 0, 64, 0, 0, 0, 0⟩,
           ⟨"18", some "avc1", some "mp4a", some "mp4", 360, 640, 0, 0, 0, 0, 0⟩])
        (audioOnlyOf
          [⟨"v1", some "vp9", none, some "mp4", 2160, 3840, 0, 0, 0, 0, 0⟩,
           ⟨"a1", none, some "opus", some "webm", 0, 0, 64, 0, 0, 0, 0⟩,
           ⟨"18", some "avc1", some "mp4a", some "mp4", 360, 640, 0, 0, 0, 0, 0⟩]) :=
  ⟨by decide,
   (C2_path_selection
       [⟨"v1", some "vp9", none, some "mp4", 2160, 3840, 0, 0, 0, 0, 0⟩,
        ⟨"a1", none, some "opus", some "webm", 0, 0, 64, 0, 0, 0, 0⟩,
        ⟨"18", some "avc1", some "mp4a", some "mp4", 360, 640, 0, 0, 0, 0, 0⟩]).1
     (by decide)⟩

/-! ### Claim C1 -/

/-- C1, as stated, is false on the code: with three combined portrait or
landscape descriptors, the returned labels are
`["1080p", "720p", "1080p", "Audio only"]` — the label `"1080p"` repeats
(no label-deduplication) and `"720p"` precedes `"1080p"` (not ordered from
highest to lowest quality). -/
theorem C1_counterexample :
    ¬ (((parse_formats
          [⟨"A", some "h264", some "aac", some "mp4", 1920, 1080, 0, 0, 0, 0, 0⟩,
           ⟨"C", some "h264", some "aac", some "mp4", 1280, 720, 0, 0, 0, 0, 0⟩,
           ⟨"B", some "h264", some "aac", some "mp4", 1080, 1920, 0, 0, 0, 0, 0⟩]).map
            QualityOption.quality).Nodup ∧
       List.Chain' (fun a b => specLabelQuality b ≤ specLabelQuality a)
         ((parse_formats
          [⟨"A", some "h264", some "aac", some "mp4", 1920, 1080, 0, 0, 0, 0, 0⟩,
           ⟨"C", some "h264", some "aac", some "mp4", 1280, 720, 0, 0, 0, 0, 0⟩,
           ⟨"B", some "h264", some "aac", some "mp4", 1080, 1920, 0, 0, 0, 0, 0⟩]).map
            QualityOption.quality)) := by decide

/-- C1 (amended): for every non-empty input the Reconciler returns a
non-empty list in which an `"Audio only"` entry can only occur as the final
entry; label-uniqueness and highest-to-lowest label ordering do not hold in
general (distinct grouping heights may share a label, and portrait
correction can label a taller descriptor below a shorter one). -/
theorem C1_nonempty_audio_last (l : List StreamDescriptor) (hne : l ≠ []) :
    parse_formats l ≠ [] ∧
    ∀ opt ∈ (parse_formats l).dropLast, opt.quality ≠ "Audio only" := by
  refine ⟨parse_formats_ne_nil l, ?_⟩
  intro opt hopt
  by_cases hd : useDashBool l = true
  · have hao := useDashBool_audio_ne_nil hd
    obtain ⟨ba, hba⟩ := bestAudio_isSome hao
    rw [parse_formats_dash hd] at hopt
    obtain ⟨f, hf, heq⟩ := dash_dropLast_mem hba opt hopt
    rw [heq]
    exact height_to_label_ne_audio f.height
  · have hd2 : useDashBool l = false := by simpa using hd
    by_cases hc : combinedOf l = []
    · rw [parse_formats_no_path hd2 hc] at hopt
      simp at hopt
    · rw [parse_formats_combined hd2 hc] at hopt
      obtain ⟨f, hf, heq⟩ := combined_dropLast_mem opt hopt
      rw [heq]
      exact combinedOptAt_quality_ne_audio _ _

/-- Witness for C1 (amended) at a concrete non-empty input. -/
theorem C1_nonempty_audio_last_witness :
    ([⟨"p1", some "h264", some "aac", some "mp4", 1920, 1080, 0, 0, 0, 0, 0⟩] :
        List StreamDescriptor) ≠ [] ∧
    (parse_formats [⟨"p1", some "h264", some "aac", some "mp4", 1920, 1080, 0, 0, 0, 0, 0⟩] ≠ [] ∧
     ∀ opt ∈ (parse_formats
        [⟨"p1", some "h264", some "aac", some "mp4", 1920, 1080, 0, 0, 0, 0, 0⟩]).dropLast,
       opt.quality ≠ "Audio only") :=
  ⟨by decide,
   C1_nonempty_audio_last
     [⟨"p1", some "h264", some "aac", some "mp4", 1920, 1080, 0, 0, 0, 0, 0⟩]
     (by decide)⟩

/-! ### More helpers: the guard view and all-combined inputs -/

/-- Unified guard view: `parse_formats` equals its final guard applied to the path result: on
empty input the path result is empty anyway, so the first guard is
redundant. -/
theorem parse_formats_eq_guard (raw : List StreamDescriptor) :
    parse_formats raw =
      if (pathFormats raw).isEmpty then [fallbackBest] else pathFormats raw := by
  rw [parse_formats]
  split
  · next hemp =>
    have hnil : raw = [] := by simpa [List.isEmpty_iff] using hemp
    subst hnil
    rfl
  · rfl

/-- Unpacking `isCombinedExplicit`: such a descriptor is in no other
partition. -/
theorem combinedExplicit_class {d : StreamDescriptor}
    (h : isCombinedExplicit d = true) :
    isVideoOnly d = false ∧ isAudioOnly d = false ∧ isCombinedMuxed d = false ∧
      d.height ≠ 0 := by
  have h2 := h
  simp only [isCombinedExplicit, Bool.and_eq_true] at h2
  obtain ⟨⟨hcv, hca⟩, hh⟩ := h2
  have hh0 : d.height ≠ 0 := by simpa using hh
  refine ⟨?_, ?_, ?_, hh0⟩
  · simp [isVideoOnly, hca]
  · simp [isAudioOnly, hh0]
  · cases hvc : d.vcodec with
    | none => rw [hvc] at hcv; simp [truthyCodec] at hcv
    | some s => simp [isCombinedMuxed, hvc]

/-- When every input descriptor is explicitly combined, `parse_formats`
reduces to the combined path on the whole input. -/
theorem parse_formats_all_combined {l : List StreamDescriptor} (hl : l ≠ [])
    (hall : ∀ f ∈ l, isCombinedExplicit f = true) :
    parse_formats l = combinedFormats l := by
  have hvo : videoOnlyOf l = [] :=
    List.filter_eq_nil_iff.mpr fun f hf => by
      simp [(combinedExplicit_class (hall f hf)).1]
  have hao : audioOnlyOf l = [] :=
    List.filter_eq_nil_iff.mpr fun f hf => by
      simp [(combinedExplicit_class (hall f hf)).2.1]
  have hcm : l.filter isCombinedMuxed = [] :=
    List.filter_eq_nil_iff.mpr fun f hf => by
      simp [(combinedExplicit_class (hall f hf)).2.2.1]
  have hce : l.filter isCombinedExplicit = l := List.filter_eq_self.mpr hall
  have hco : combinedOf l = l := by simp [combinedOf, hce, hcm]
  have hd : useDashBool l = false := by simp [useDashBool, hvo]
  rw [parse_formats_combined hd (by rw [hco]; exact hl), hco]

/-! ### Claim C4 -/

/-- C4, as stated, is false on the code: the descriptor
`{format_id := "8", vcodec absent, acodec absent, height 360}` fails all
three classification predicates of the spec's data model (video-only,
audio-only, combined), so the claim says it is ignored — but
`parse_formats` classifies it as muxed combined and emits a quality option
for it. -/
theorem C4_counterexample :
    specIsVideoOnly ⟨"8", none, none, some "mp4", 360, 640, 0, 0, 0, 0, 0⟩ = false ∧
    specIsAudioOnly ⟨"8", none, none, some "mp4", 360, 640, 0, 0, 0, 0, 0⟩ = false ∧
    specIsCombined ⟨"8", none, none, some "mp4", 360, 640, 0, 0, 0, 0, 0⟩ = false ∧
    parse_formats [⟨"8", none, none, some "mp4", 360, 640, 0, 0, 0, 0, 0⟩] ≠
      [fallbackBest] ∧
    (parse_formats [⟨"8", none, none, some "mp4", 360, 640, 0, 0, 0, 0, 0⟩]).map
        QualityOption.id = ["8", "bestaudio/best"] := by decide

/-- C4 (amended): a descriptor failing all four classification predicates of
the code (video-only, audio-only, explicitly combined, muxed combined — the
last capturing positive height with both codec fields literally absent) is
ignored: deleting it from the input never changes the output. A
positive-height descriptor with both codec fields set to the `"none"`
sentinel is such an ignored descriptor; one with both codec fields absent
is muxed combined instead, and is not ignored. -/
theorem C4_ignored_descriptor (l1 l2 : List StreamDescriptor)
    (f : StreamDescriptor) (hig : codeIgnored f = true) :
    parse_formats (l1 ++ f :: l2) = parse_formats (l1 ++ l2) := by
  have hig2 := hig
  simp only [codeIgnored, Bool.and_eq_true, Bool.not_eq_true'] at hig2
  obtain ⟨⟨⟨h1, h2⟩, h3⟩, h4⟩ := hig2
  have hvo : videoOnlyOf (l1 ++ f :: l2) = videoOnlyOf (l1 ++ l2) := by
    simp [videoOnlyOf, List.filter_append, List.filter_cons, h1]
  have hao : audioOnlyOf (l1 ++ f :: l2) = audioOnlyOf (l1 ++ l2) := by
    simp [audioOnlyOf, List.filter_append, List.filter_cons, h2]
  have hco : combinedOf (l1 ++ f :: l2) = combinedOf (l1 ++ l2) := by
    simp [combinedOf, List.filter_append, List.filter_cons, h3, h4]
  have hub : useDashBool (l1 ++ f :: l2) = useDashBool (l1 ++ l2) := by
    unfold useDashBool
    rw [hvo, hao, hco]
  have hpf : pathFormats (l1 ++ f :: l2) = pathFormats (l1 ++ l2) := by
    unfold pathFormats
    rw [hub, hvo, hao, hco]
  rw [parse_formats_eq_guard, parse_formats_eq_guard, hpf]

/-- Witness for C4 (amended): dropping a `"none"`-sentinel descriptor from a
two-element input leaves the output unchanged. -/
theorem C4_ignored_descriptor_witness :
    codeIgnored ⟨"x", some "none", some "none", some "mp4", 360, 640, 0, 0, 0, 0, 0⟩ = true ∧
    parse_formats
        ([⟨"18", some "avc1", some "mp4a", some "mp4", 360, 640, 0, 0, 0, 0, 0⟩] ++
          ⟨"x", some "none", some "none", some "mp4", 360, 640, 0, 0, 0, 0, 0⟩ :: []) =
      parse_formats
        ([⟨"18", some "avc1", some "mp4a", some "mp4", 360, 640, 0, 0, 0, 0, 0⟩] ++ []) :=
  ⟨by decide,
   C4_ignored_descriptor
     [⟨"18", some "avc1", some "mp4a", some "mp4", 360, 640, 0, 0, 0, 0, 0⟩] []
     ⟨"x", some "none", some "none", some "mp4", 360, 640, 0, 0, 0, 0, 0⟩ (by decide)⟩

/-! ### Claim C5 -/

/-- C5, as stated, is false on the code: with a video-only descriptor of
known size 1000 and a best audio stream of unknown size (coalesced to 0),
the emitted video option carries `filesize = some 1000` rather than the
`None` the claim requires when either component's size is unknown. -/
theorem C5_counterexample :
    pyOr (⟨"140", none, some "mp4a", some "m4a", 0, 0, 128, 0, 0, 0, 0⟩ :
        StreamDescriptor).filesize
      (⟨"140", none, some "mp4a", some "m4a", 0, 0, 128, 0, 0, 0, 0⟩ :
        StreamDescriptor).filesize_approx = 0 ∧
    parse_formats
        [⟨"137", some "avc1", none, some "mp4", 1080, 1920, 0, 0, 0, 1000, 0⟩,
         ⟨"140", none, some "mp4a", some "m4a", 0, 0, 128, 0, 0, 0, 0⟩] =
      [⟨"137+140", "mp4", "1080p", some 1000⟩,
       ⟨"bestaudio[ext=m4a]/bestaudio", "mp3", "Audio only", none⟩] ∧
    (some 1000 : Option Nat) ≠ none := by decide

/-- C5 (amended): on the split-stream path, every emitted video option's
`size_bytes` is the sum of the chosen video descriptor's coalesced size and
the chosen audio stream's coalesced size whenever that sum is positive
(an unknown component contributes 0), and `None` only when both components'
sizes are unknown or zero. -/
theorem C5_dash_sizes (l : List StreamDescriptor) (hcond : useDashCond l) :
    ∀ opt ∈ (parse_formats l).dropLast, ∃ f, f ∈ videoOnlyOf l ∧
      opt.filesize =
        (if pyOr f.filesize f.filesize_approx + dashAudioSize (audioOnlyOf l) > 0
         then some (pyOr f.filesize f.filesize_approx + dashAudioSize (audioOnlyOf l))
         else none) := by
  intro opt hopt
  have hd := (useDashBool_iff l).mpr hcond
  have hao := useDashBool_audio_ne_nil hd
  obtain ⟨ba, hba⟩ := bestAudio_isSome hao
  rw [parse_formats_dash hd] at hopt
  obtain ⟨f, hf, heq⟩ := dash_dropLast_mem hba opt hopt
  refine ⟨f, hf, ?_⟩
  have hsz : dashAudioSize (audioOnlyOf l) = pyOr ba.filesize ba.filesize_approx := by
    rw [dashAudioSize, hba]
  rw [heq, hsz]
  rfl

/-- Witness for C5 (amended) at the counterexample input: the emitted
`some 1000` satisfies the corrected size rule. -/
theorem C5_dash_sizes_witness :
    ∃ f, f ∈ videoOnlyOf
        [⟨"137", some "avc1", none, some "mp4", 1080, 1920, 0, 0, 0, 1000, 0⟩,
         ⟨"140", none, some "mp4a", some "m4a", 0, 0, 128, 0, 0, 0, 0⟩] ∧
      (⟨"137+140", "mp4", "1080p", some 1000⟩ : QualityOption).filesize =
        (if pyOr f.filesize f.filesize_approx +
              dashAudioSize (audioOnlyOf
                [⟨"137", some "avc1", none, some "mp4", 1080, 1920, 0, 0, 0, 1000, 0⟩,
                 ⟨"140", none, some "mp4a", some "m4a", 0, 0, 128, 0, 0, 0, 0⟩]) > 0
         then some (pyOr f.filesize f.filesize_approx +
              dashAudioSize (audioOnlyOf
                [⟨"137", some "avc1", none, some "mp4", 1080, 1920, 0, 0, 0, 1000, 0⟩,
                 ⟨"140", none, some "mp4a", some "m4a", 0, 0, 128, 0, 0, 0, 0⟩]))
         else none) :=
  C5_dash_sizes
    [⟨"137", some "avc1", none, some "mp4", 1080, 1920, 0, 0, 0, 1000, 0⟩,
     ⟨"140", none, some "mp4a", some "m4a", 0, 0, 128, 0, 0, 0, 0⟩]
    (by decide)
    ⟨"137+140", "mp4", "1080p", some 1000⟩
    (by decide)

/-! ### Claim C6 -/

/-- C6: on the combined path, every emitted video option stems from a
combined descriptor; whenever that descriptor's identifier yields no
resolution token and it is portrait (`height > width > 0`), the option's
label is its `width` mapped through the height-to-label function. In
particular a combined descriptor with height 1920 and width 1080 is
labeled `"1080p"`. -/
theorem C6_portrait_combined :
    (∀ l : List StreamDescriptor, ¬ useDashCond l → combinedOf l ≠ [] →
      ∀ opt ∈ (parse_formats l).dropLast, ∃ f, f ∈ combinedOf l ∧
        opt.id = f.format_id ∧
        (label_from_format_id f.format_id = none → f.width < f.height →
          0 < f.width → opt.quality = height_to_label f.width)) ∧
    parse_formats
        [⟨"p1", some "h264", some "aac", some "mp4", 1920, 1080, 0, 0, 0, 0, 0⟩] =
      [⟨"p1", "mp4", "1080p", none⟩, combinedAudioOpt] := by
  constructor
  · intro l hnd hc opt hopt
    have hd : useDashBool l = false := by
      rcases hb : useDashBool l with _ | _
      · rfl
      · exact absurd ((useDashBool_iff l).mp hb) hnd
    rw [parse_formats_combined hd hc] at hopt
    obtain ⟨f, hf, heq⟩ := combined_dropLast_mem opt hopt
    refine ⟨f, tiktokDedup_subset _ hf, by rw [heq]; rfl, ?_⟩
    intro hnone hp hw
    rw [heq]
    unfold combinedOptAt
    dsimp only
    rw [hnone]
    have hport : (decide (f.height > f.width) && decide (f.width > 0)) = true := by
      simp [hp, hw]
    rw [hport]
    simp
  · decide

/-- Witness for C6 at the concrete portrait input (height 1920, width 1080,
no resolution token in `"p1"`). -/
theorem C6_portrait_combined_witness :
    ∃ f, f ∈ combinedOf
        [⟨"p1", some "h264", some "aac", some "mp4", 1920, 1080, 0, 0, 0, 0, 0⟩] ∧
      (⟨"p1", "mp4", "1080p", none⟩ : QualityOption).id = f.format_id ∧
      (label_from_format_id f.format_id = none → f.width < f.height →
        0 < f.width →
        (⟨"p1", "mp4", "1080p", none⟩ : QualityOption).quality =
          height_to_label f.width) :=
  C6_portrait_combined.1
    [⟨"p1", some "h264", some "aac", some "mp4", 1920, 1080, 0, 0, 0, 0, 0⟩]
    (by decide) (by decide) ⟨"p1", "mp4", "1080p", none⟩ (by decide)

/-! ### Claim C9 -/

/-- C9: the duplicate-suffix filter activates as soon as any combined
descriptor's identifier ends in `-0` or `-1`, and then drops every
descriptor ending in `-1` even without a `-0` counterpart; when every
combined descriptor ends in `-1` (and the split path is not taken), the
result is only the trailing `"Audio only"` option. -/
theorem C9_dupe_filter :
    (∀ c : List StreamDescriptor, c.any endsDupeSuffix = true →
      tiktokDedup c = c.filter (fun f => !strEndsWith f.format_id "-1")) ∧
    (∀ l : List StreamDescriptor, ¬ useDashCond l → combinedOf l ≠ [] →
      (∀ f ∈ combinedOf l, strEndsWith f.format_id "-1" = true) →
      parse_formats l = [combinedAudioOpt]) := by
  constructor
  · intro c hc
    simp [tiktokDedup, hc]
  · intro l hnd hc hall
    have hd : useDashBool l = false := by
      rcases hb : useDashBool l with _ | _
      · rfl
      · exact absurd ((useDashBool_iff l).mp hb) hnd
    rw [parse_formats_combined hd hc]
    have hdd : tiktokDedup (combinedOf l) = [] := by
      unfold tiktokDedup
      obtain ⟨f, hf⟩ := List.exists_mem_of_ne_nil _ hc
      rw [if_pos (List.any_eq_true.mpr ⟨f, hf, by simp [endsDupeSuffix, hall f hf]⟩)]
      exact List.filter_eq_nil_iff.mpr fun g hg => by simp [hall g hg]
    unfold combinedFormats
    rw [hdd]
    rfl

/-- Witness for C9: a lone `-1`-suffixed combined descriptor vanishes,
leaving only the `"Audio only"` option. -/
theorem C9_dupe_filter_witness :
    parse_formats
        [⟨"xyz-1", some "h264", some "aac", some "mp4", 720, 1280, 0, 0, 0, 0, 0⟩] =
      [combinedAudioOpt] :=
  C9_dupe_filter.2
    [⟨"xyz-1", some "h264", some "aac", some "mp4", 720, 1280, 0, 0, 0, 0, 0⟩]
    (by decide) (by decide) (by decide)

/-! ### Claim C10 -/

/-- C10: on the split-stream path every emitted video option's label is its
source descriptor's raw height mapped through the height-to-label function
(no width comparison); concretely a portrait video-only descriptor with
height 1920 and width 1080 yields `"4K"` (1920 is within 12% of 2160),
not `"1080p"`. -/
theorem C10_split_label_raw_height :
    (∀ l : List StreamDescriptor, useDashCond l →
      ∀ opt ∈ (parse_formats l).dropLast, ∃ f, f ∈ videoOnlyOf l ∧
        opt.quality = height_to_label f.height) ∧
    parse_formats
        [⟨"137", some "avc1", none, some "mp4", 1920, 1080, 0, 0, 0, 0, 0⟩,
         ⟨"140", none, some "mp4a", some "m4a", 0, 0, 128, 0, 0, 0, 0⟩] =
      [⟨"137+140", "mp4", "4K", none⟩,
       ⟨"bestaudio[ext=m4a]/bestaudio", "mp3", "Audio only", none⟩] ∧
    ("4K" : String) ≠ "1080p" := by
  refine ⟨?_, by decide, by decide⟩
  intro l hcond opt hopt
  have hd := (useDashBool_iff l).mpr hcond
  obtain ⟨ba, hba⟩ := bestAudio_isSome (useDashBool_audio_ne_nil hd)
  rw [parse_formats_dash hd] at hopt
  obtain ⟨f, hf, heq⟩ := dash_dropLast_mem hba opt hopt
  exact ⟨f, hf, by rw [heq]; rfl⟩

/-- Witness for C10 at the concrete portrait video-only input. -/
theorem C10_split_label_raw_height_witness :
    ∃ f, f ∈ videoOnlyOf
        [⟨"137", some "avc1", none, some "mp4", 1920, 1080, 0, 0, 0, 0, 0⟩,
         ⟨"140", none, some "mp4a", some "m4a", 0, 0, 128, 0, 0, 0, 0⟩] ∧
      (⟨"137+140", "mp4", "4K", none⟩ : QualityOption).quality =
        height_to_label f.height :=
  C10_split_label_raw_height.1
    [⟨"137", some "avc1", none, some "mp4", 1920, 1080, 0, 0, 0, 0, 0⟩,
     ⟨"140", none, some "mp4a", some "m4a", 0, 0, 128, 0, 0, 0, 0⟩]
    (by decide) ⟨"137+140", "mp4", "4K", none⟩ (by decide)

/-! ### Claim C7 -/

/-- C7: two explicitly combined descriptors with identifiers `"abc-0"` and
`"abc-1"` and identical height collapse to exactly one emitted video
option, whose selector is `"abc-0"`. -/
theorem C7_duplicate_suffix (d0 d1 : StreamDescriptor)
    (h0 : d0.format_id = "abc-0") (h1 : d1.format_id = "abc-1")
    (hc0 : isCombinedExplicit d0 = true) (hc1 : isCombinedExplicit d1 = true)
    (hh : d1.height = d0.height) :
    (parse_formats [d0, d1]).dropLast.map QualityOption.id = ["abc-0"] := by
  have hall : ∀ f ∈ [d0, d1], isCombinedExplicit f = true := by
    intro f hf
    rcases List.mem_cons.mp hf with he | hf2
    · rw [he]; exact hc0
    · rcases List.mem_cons.mp hf2 with he | hf3
      · rw [he]; exact hc1
      · simp at hf3
  rw [parse_formats_all_combined (by simp) hall]
  have he0 : endsDupeSuffix d0 = true := by
    unfold endsDupeSuffix
    rw [h0]
    decide
  have hf0 : strEndsWith d0.format_id "-1" = false := by rw [h0]; decide
  have hf1 : strEndsWith d1.format_id "-1" = true := by rw [h1]; decide
  have hdd : tiktokDedup [d0, d1] = [d0] := by
    unfold tiktokDedup
    rw [if_pos (by simp [he0])]
    simp [List.filter_cons, hf0, hf1]
  have hh0 : d0.height ≠ 0 := (combinedExplicit_class hc0).2.2.2
  have hgb : groupByHeight combReplace [d0] = [(d0.height, d0)] := by
    simp [groupByHeight, groupStep, hh0, lookupH]
  unfold combinedFormats
  simp only [hdd, hgb]
  have hlk : lookupH [(d0.height, d0)] d0.height = some d0 := by simp [lookupH]
  have hemit :
      emitCombined [(d0.height, d0)] (sortDesc ([(d0.height, d0)].map Prod.fst)) =
        [combinedOptAt d0.height d0] := by
    show emitCombined [(d0.height, d0)] [d0.height] = _
    rw [emitCombined, hlk]
    rfl
  rw [hemit]
  simp [combinedOptAt, h0]

/-- Witness for C7 at concrete TikTok-style duplicate descriptors. -/
theorem C7_duplicate_suffix_witness :
    (parse_formats
        [⟨"abc-0", some "h264", some "aac", some "mp4", 720, 1280, 0, 0, 0, 500, 0⟩,
         ⟨"abc-1", some "h264", some "aac", some "mp4", 720, 1280, 0, 0, 0, 500, 0⟩]).dropLast.map
      QualityOption.id = ["abc-0"] :=
  C7_duplicate_suffix
    ⟨"abc-0", some "h264", some "aac", some "mp4", 720, 1280, 0, 0, 0, 500, 0⟩
    ⟨"abc-1", some "h264", some "aac", some "mp4", 720, 1280, 0, 0, 0, 500, 0⟩
    (by decide) (by decide) (by decide) (by decide) (by decide)
